import Mathlib

/-
Verification development for the claude-code-sync session reconciliation
engine.  The definitions below are a shallow embedding of the TypeScript
source: `src/cli.ts` (transcript parser, session-state store, hook event
handlers) and the library module (MODEL_PRICING, calculateCost).
JavaScript strings are embedded as `String` (or `List Char` where we need
structural lemmas), JS numbers that hold token counts as `Nat`, monetary
rates as `ℚ`, and `undefined`-able fields as `Option`.
-/

namespace ClaudeCodeSync

/-! ### Transcript data model (cli.ts, TranscriptEntry and friends) -/

/-- tokenUsage accumulator: `{input: number, output: number}`. -/
structure TokenUsage where
  input : Nat
  output : Nat
deriving DecidableEq, Repr

/-- `TranscriptUsage` from cli.ts: the four optional per-turn counters. -/
structure TranscriptUsage where
  input_tokens : Option Nat := none
  output_tokens : Option Nat := none
  cache_creation_input_tokens : Option Nat := none
  cache_read_input_tokens : Option Nat := none
deriving DecidableEq, Repr

/-- `TranscriptContentPart` from cli.ts (only the fields the parser reads). -/
structure TranscriptContentPart where
  type : String
  text : Option String := none
deriving DecidableEq, Repr

/-- `TranscriptMessage` from cli.ts (only the fields the parser reads). -/
structure TranscriptMessage where
  content : Option (List TranscriptContentPart) := none
  usage : Option TranscriptUsage := none
  model : Option String := none
deriving DecidableEq, Repr

/-- `TranscriptEntry` from cli.ts: one JSONL line of the transcript. -/
structure TranscriptEntry where
  type : Option String := none
  uuid : Option String := none
  timestamp : Option String := none
  message : Option TranscriptMessage := none
deriving DecidableEq, Repr

/-- One element of `ParsedTranscript.assistantMessages` in cli.ts. -/
structure AssistantMessage where
  uuid : String
  text : String
  timestamp : String
  model : Option String
deriving DecidableEq, Repr

/-- `ParsedTranscript` from cli.ts. -/
structure ParsedTranscript where
  assistantMessages : List AssistantMessage
  tokenUsage : TokenUsage
deriving DecidableEq, Repr

/-- JS `a || b` on an optional string: the empty string is falsy. -/
def jsStrOr (a : Option String) (b : String) : String :=
  match a with
  | some s => if s = "" then b else s
  | none => b

/-- The inner loop of `parseTranscriptFile` over `msg.content`: a content
part contributes a pushed assistant message iff its `type` is `"text"` and
its `text` is truthy (present and non-empty).  `now` stands for the
`new Date().toISOString()` default used when the entry has no timestamp. -/
def extractTexts (uuid now : String) (entryTs : Option String)
    (msg : TranscriptMessage) : List AssistantMessage :=
  match msg.content with
  | none => []
  | some parts =>
    parts.filterMap (fun part =>
      if part.type = "text" then
        match part.text with
        | some t => if t = "" then none
            else some { uuid := uuid, text := t, timestamp := jsStrOr entryTs now,
                        model := msg.model }
        | none => none
      else none)

/-- Usage accumulation in `parseTranscriptFile`:
`input += input_tokens + cache_read + cache_creation; output += output_tokens`. -/
def usageAdd (tu : TokenUsage) (u : Option TranscriptUsage) : TokenUsage :=
  match u with
  | none => tu
  | some usage =>
    { input := tu.input + (usage.input_tokens.getD 0) +
        (usage.cache_read_input_tokens.getD 0) +
        (usage.cache_creation_input_tokens.getD 0),
      output := tu.output + (usage.output_tokens.getD 0) }

/-- One iteration of the `for (const line of lines)` loop in
`parseTranscriptFile`; the second component of the accumulator is the
`seenUuids` set (insertion-ordered, as a JS `Set`). -/
def parseStep (now : String) (acc : ParsedTranscript × List String)
    (entry : TranscriptEntry) : ParsedTranscript × List String :=
  let (res, seen) := acc
  if entry.type = some "assistant" then
    match entry.message with
    | some msg =>
      let uuid := entry.uuid.getD ""
      if uuid ≠ "" ∧ uuid ∈ seen then acc
      else
        ({ assistantMessages := res.assistantMessages ++ extractTexts uuid now entry.timestamp msg,
           tokenUsage := usageAdd res.tokenUsage msg.usage },
         if uuid ≠ "" then seen ++ [uuid] else seen)
    | none => acc
  else acc

/-- `parseTranscriptFile` from cli.ts.  The file system is abstracted: the
argument is `none` when the file does not exist, otherwise the list of
lines where a `none` line stands for a malformed (skipped) JSON line. -/
def parseTranscriptFile (now : String)
    (file : Option (List (Option TranscriptEntry))) : ParsedTranscript :=
  match file with
  | none => { assistantMessages := [], tokenUsage := ⟨0, 0⟩ }
  | some lines =>
    ((lines.filterMap id).foldl (parseStep now)
      ({ assistantMessages := [], tokenUsage := ⟨0, 0⟩ }, [])).1

/-! ### Session state store (cli.ts, SessionState) -/

/-- The per-session accumulator persisted in `session-state.json`.
`syncedMessageUuids` is kept as an insertion-ordered list; only membership
matters, matching the JS `Set`/array duality. -/
structure SessionEntry where
  model : Option String := none
  firstPrompt : Option String := none
  tokenUsage : Option TokenUsage := none
  messageCount : Option Nat := none
  syncedMessageUuids : Option (List String) := none
deriving DecidableEq, Repr

/-- The `sessionState[id] || {}` default. -/
def emptySessionEntry : SessionEntry := {}

/-! ### The Stop handler (cli.ts, hook "Stop" case) -/

/-- Loop state of the `for (const msg of transcript.assistantMessages)`
loop in the Stop case: synced-uuid set, running `state.messageCount`, and
the assistant messages forwarded so far (in order). -/
structure StopAcc where
  synced : List String
  messageCount : Option Nat
  emitted : List AssistantMessage
deriving DecidableEq, Repr

/-- One iteration of the Stop-case message loop:
skip when `msg.uuid && syncedMessages.has(msg.uuid)`; otherwise add the
uuid when truthy, increment `messageCount`, and forward the message. -/
def stopStep (acc : StopAcc) (msg : AssistantMessage) : StopAcc :=
  if msg.uuid ≠ "" ∧ msg.uuid ∈ acc.synced then acc
  else
    { synced := if msg.uuid ≠ "" then acc.synced ++ [msg.uuid] else acc.synced,
      messageCount := some (acc.messageCount.getD 0 + 1),
      emitted := acc.emitted ++ [msg] }

/-- Result of the Stop handler: the state written back to the store and
the assistant messages forwarded to the collector, in order. -/
structure StopResult where
  state : SessionEntry
  emitted : List AssistantMessage
deriving DecidableEq, Repr

/-- The hook `Stop` case from cli.ts, as a function of the prior session
entry and the event's `transcript_path` (`fs` abstracts the file system;
an empty path is falsy in JS and skips the parse, like an absent one). -/
def hookStop (fs : String → Option (List (Option TranscriptEntry)))
    (now : String) (st : SessionEntry) (transcriptPath : Option String) : StopResult :=
  match transcriptPath with
  | none => { state := st, emitted := [] }
  | some p =>
    if p = "" then { state := st, emitted := [] }
    else
      let transcript := parseTranscriptFile now (fs p)
      let st1 := if transcript.tokenUsage.input > 0 ∨ transcript.tokenUsage.output > 0 then
          { st with tokenUsage := some transcript.tokenUsage } else st
      let r := transcript.assistantMessages.foldl stopStep
          { synced := st.syncedMessageUuids.getD [], messageCount := st.messageCount,
            emitted := [] }
      let st2 : SessionEntry :=
        { st1 with messageCount := r.messageCount, syncedMessageUuids := some r.synced }
      { state := st2, emitted := r.emitted }

/-! ### Title derivation (cli.ts, generateTitle)

JS strings are embedded as `List Char` here so that slicing lemmas are
available; `trimChars` is JS `String.prototype.trim`, `jsLastIndexOf` is
`lastIndexOf` (−1 when absent). -/

/-- JS `s.trim()`: strip leading and trailing whitespace. -/
def trimChars (l : List Char) : List Char :=
  ((l.dropWhile Char.isWhitespace).reverse.dropWhile Char.isWhitespace).reverse

/-- JS `s.lastIndexOf(c)`: index of the last occurrence, `-1` if absent. -/
def jsLastIndexOf (l : List Char) (c : Char) : Int :=
  if c ∈ l then ((l.length - 1 - l.reverse.indexOf c : Nat) : Int) else -1

/-- The ellipsis marker `"..."` appended by `generateTitle`. -/
def ellipsis : List Char := ['.', '.', '.']

/-- `generateTitle` from cli.ts:
`trimmed = prompt.slice(0, 80).trim()`; when the prompt is longer than 80
characters, cut at `trimmed.lastIndexOf(" ")` when that index is `> 40`,
else keep `trimmed`; append `"..."`; otherwise return `trimmed`. -/
def generateTitle (prompt : List Char) : List Char :=
  let trimmed := trimChars (prompt.take 80)
  if 80 < prompt.length then
    let lastSpace := jsLastIndexOf trimmed ' '
    if 40 < lastSpace then trimmed.take lastSpace.toNat ++ ellipsis
    else trimmed ++ ellipsis
  else trimmed

/-- Index of the last space of `l`, if any (spec-level counterpart of
`jsLastIndexOf`). -/
def lastSpaceIdx (l : List Char) : Option Nat :=
  if ' ' ∈ l then some (l.length - 1 - l.reverse.indexOf ' ') else none

/-- Modelled from the amended claim wording for title derivation: a prompt
of at most 80 characters yields the trimmed prompt verbatim; a longer
prompt yields the whitespace-trimmed first-80-character window, cut just
before its last space when that space sits at 0-based index strictly
greater than 40 (i.e. is the 42nd character or later), with `"..."`
appended; otherwise the whole trimmed window with `"..."` appended. -/
def generateTitleAmended (prompt : List Char) : List Char :=
  if prompt.length ≤ 80 then trimChars prompt
  else
    let w := trimChars (prompt.take 80)
    match lastSpaceIdx w with
    | some k => if 40 < k then w.take k ++ ellipsis else w ++ ellipsis
    | none => w ++ ellipsis

/-! ### Cost calculation (library module: MODEL_PRICING, calculateCost) -/

/-- One row of the static pricing table: per-million-token USD rates. -/
structure Pricing where
  input : ℚ
  output : ℚ
  cacheWrite : ℚ
  cacheRead : ℚ
deriving DecidableEq, Repr

/-- `MODEL_PRICING` from the library module, in source (insertion) order. -/
def MODEL_PRICING : List (String × Pricing) :=
  [("claude-sonnet-4-20250514", ⟨3.00, 15.00, 3.75, 0.30⟩),
   ("claude-opus-4-20250514", ⟨15.00, 75.00, 18.75, 1.50⟩),
   ("claude-opus-4-5-20251101", ⟨15.00, 75.00, 18.75, 1.50⟩),
   ("claude-3-5-sonnet-20241022", ⟨3.00, 15.00, 3.75, 0.30⟩),
   ("claude-3-opus-20240229", ⟨15.00, 75.00, 18.75, 1.50⟩),
   ("claude-3-5-haiku-20241022", ⟨0.80, 4.00, 1.00, 0.08⟩)]

/-- `TranscriptStats` from the library module (cost input). -/
structure TranscriptStats where
  model : Option String := none
  inputTokens : Nat := 0
  cacheCreationTokens : Nat := 0
  cacheReadTokens : Nat := 0
  outputTokens : Nat := 0
  messageCount : Nat := 0
  toolCallCount : Nat := 0
  title : Option String := none
  cwd : Option String := none
deriving DecidableEq, Repr

/-- JS `s.includes(sub)`: substring test. -/
def jsIncludes (s sub : String) : Bool :=
  decide (List.IsInfix sub.toList s.toList)

/-- The pricing-row lookup of `calculateCost`: exact key match first, then
the first key (in table order) that is a substring of the model or of
which the model is a substring. -/
def pricingLookup (m : String) : Option Pricing :=
  match MODEL_PRICING.find? (fun kv => kv.1 = m) with
  | some kv => some kv.2
  | none =>
    (MODEL_PRICING.find? (fun kv => jsIncludes m kv.1 || jsIncludes kv.1 m)).map (·.2)

/-- The linear cost formula of `calculateCost`. -/
def costFormula (p : Pricing) (stats : TranscriptStats) : ℚ :=
  (stats.inputTokens * p.input + stats.cacheCreationTokens * p.cacheWrite +
   stats.cacheReadTokens * p.cacheRead + stats.outputTokens * p.output) / 1000000

/-- `calculateCost` from the library module.  `if (!model) return 0`
rejects both an undefined and an empty model string (JS falsiness). -/
def calculateCost (model : Option String) (stats : TranscriptStats) : ℚ :=
  match model with
  | none => 0
  | some m =>
    if m = "" then 0
    else
      match pricingLookup m with
      | none => 0
      | some p => costFormula p stats

/-- Modelled from the claim wording for the cost calculation: result 0
exactly when the model is undefined or no (exact-then-substring) match is
found; otherwise the linear per-million formula.  Differs from
`calculateCost` only on the empty model string, which here still goes
through the lookup. -/
def calculateCostClaim (model : Option String) (stats : TranscriptStats) : ℚ :=
  match model with
  | none => 0
  | some m =>
    match pricingLookup m with
    | none => 0
    | some p => costFormula p stats

/-! ### Forwarded records, lifecycle events and effect traces -/

/-- The fields of a forwarded Session record that the hook handlers set
(identity/source fields and timestamps omitted; titles as `List Char`). -/
structure SessionRecord where
  title : Option (List Char) := none
  model : Option String := none
  endReason : Option String := none
  messageCount : Option Nat := none
  toolCallCount : Option Nat := none
  tokenUsage : Option TokenUsage := none
  costEstimate : Option ℚ := none
deriving DecidableEq, Repr

/-- The fields of a forwarded Message record that the hook handlers set.
`uuid` is the transcript entry id used for `messageId` when truthy. -/
structure MessageRecord where
  role : String
  content : Option String := none
  uuid : Option String := none
  model : Option String := none
deriving DecidableEq, Repr

/-- The `HookSessionEndData` payload fields used by the SessionEnd case. -/
structure SessionEndData where
  message_count : Option Nat := none
  tool_call_count : Option Nat := none
  total_token_usage : Option TokenUsage := none
  cost_estimate : Option ℚ := none
  reason : Option String := none
deriving DecidableEq, Repr

/-- JS `a || b` on optional numbers: a present zero is falsy. -/
def jsNumOr (a b : Option Nat) : Option Nat :=
  match a with
  | some n => if n = 0 then b else some n
  | none => b

/-- JS truthiness of an optional string. -/
def jsTruthyStr (a : Option String) : Bool :=
  match a with
  | some s => s ≠ ""
  | none => false

/-- The hook `SessionEnd` case from cli.ts: builds the final Session
record (`data.message_count || state.messageCount`,
`data.total_token_usage || state.tokenUsage`, title from a truthy
`state.firstPrompt`) and deletes the accumulator. -/
def hookSessionEnd (st : Option SessionEntry) (data : SessionEndData) :
    SessionRecord × Option SessionEntry :=
  let s := st.getD emptySessionEntry
  ({ title := match s.firstPrompt with
      | some fp => if fp = "" then none else some (generateTitle fp.toList)
      | none => none,
     endReason := data.reason,
     messageCount := jsNumOr data.message_count s.messageCount,
     toolCallCount := data.tool_call_count,
     tokenUsage := match data.total_token_usage with
      | some u => some u
      | none => s.tokenUsage,
     costEstimate := data.cost_estimate },
   none)

/-- The five dispatched lifecycle event kinds plus the unknown fallthrough,
with the payload fields the handlers read (for a fixed session id). -/
inductive HookEvent where
  | sessionStart (model : Option String)
  | sessionEnd (data : SessionEndData)
  | userPromptSubmit (prompt : String)
  | postToolUse
  | stop (transcriptPath : Option String)
  | unknownEvent
deriving DecidableEq, Repr

/-- The UserPromptSubmit state mutation from cli.ts: record the first
truthy prompt, then increment `messageCount`. -/
def userPromptState (s : SessionEntry) (prompt : String) : SessionEntry :=
  let s1 := if jsTruthyStr s.firstPrompt then s else { s with firstPrompt := some prompt }
  { s1 with messageCount := some (s1.messageCount.getD 0 + 1) }

/-- Per-session state transition of one hook invocation (the persisted
entry for the fixed session id; `none` = no accumulator).  SessionStart
overwrites the entry with fresh zero counters; SessionEnd deletes it;
PostToolUse and unknown events leave the store untouched. -/
def eventStep (fs : String → Option (List (Option TranscriptEntry))) (now : String)
    (st : Option SessionEntry) : HookEvent → Option SessionEntry
  | .sessionStart m =>
    some { model := m, tokenUsage := some ⟨0, 0⟩, messageCount := some 0 }
  | .sessionEnd data => (hookSessionEnd st data).2
  | .userPromptSubmit prompt => some (userPromptState (st.getD emptySessionEntry) prompt)
  | .postToolUse => st
  | .stop tp => some (hookStop fs now (st.getD emptySessionEntry) tp).state
  | .unknownEvent => st

/-- The `messageCount` visible in the store (absent entry or field = 0). -/
def observedCount (st : Option SessionEntry) : Nat :=
  ((st.getD emptySessionEntry).messageCount).getD 0

/-- The externally visible effects of one hook invocation, in program
order: persisting the state file, and the awaited collector calls. -/
inductive Effect where
  | save (st : Option SessionEntry)
  | syncMessage (m : MessageRecord)
  | syncSession (r : SessionRecord)
deriving DecidableEq, Repr

/-- The Message record forwarded for one newly seen assistant turn. -/
def assistantRecord (m : AssistantMessage) : MessageRecord :=
  { role := "assistant", content := some m.text,
    uuid := if m.uuid = "" then none else some m.uuid, model := m.model }

/-- Effect trace of one hook invocation, in the source's program order.
SessionStart: save then session sync.  SessionEnd: session sync, then the
delete is persisted.  UserPromptSubmit: on a first truthy prompt, save and
sync the title first; then save the incremented count and sync the user
message.  PostToolUse: one message sync when `syncToolCalls` is enabled.
Stop: one message sync per newly seen assistant turn, then the state save,
then the session update with the final totals. -/
def hookEffects (fs : String → Option (List (Option TranscriptEntry))) (now : String)
    (syncToolCalls : Bool) (st : Option SessionEntry) : HookEvent → List Effect
  | .sessionStart m =>
    [.save (eventStep fs now st (.sessionStart m)), .syncSession { model := m }]
  | .sessionEnd data =>
    [.syncSession (hookSessionEnd st data).1, .save none]
  | .userPromptSubmit prompt =>
    let s := st.getD emptySessionEntry
    let titleEffects :=
      if jsTruthyStr s.firstPrompt then []
      else [Effect.save (some { s with firstPrompt := some prompt }),
            Effect.syncSession { title := some (generateTitle prompt.toList) }]
    titleEffects ++
      [Effect.save (some (userPromptState s prompt)),
       Effect.syncMessage { role := "user", content := some prompt }]
  | .postToolUse =>
    if syncToolCalls then [Effect.syncMessage { role := "assistant" }] else []
  | .stop tp =>
    let r := hookStop fs now (st.getD emptySessionEntry) tp
    r.emitted.map (fun m => Effect.syncMessage (assistantRecord m)) ++
      [Effect.save (some r.state),
       Effect.syncSession { tokenUsage := r.state.tokenUsage,
                            messageCount := r.state.messageCount }]
  | .unknownEvent => [Effect.save st]

/-- Collector calls can throw; the state save cannot. -/
def isSyncEffect : Effect → Bool
  | .save _ => false
  | .syncMessage _ => true
  | .syncSession _ => true

/-- Outcome of running one hook invocation under a fault model `fails`:
the effects that completed, the process exit code, and whether the
top-level catch handler logged a delivery error. -/
structure HookOutcome where
  performed : List Effect
  exitCode : Nat
  errorLogged : Bool
deriving DecidableEq, Repr

/-- Run the effect trace: the first throwing collector call aborts the
remaining effects and lands in the hook command's catch handler, which
logs the error and still calls `process.exit(0)`. -/
def runEffects (fails : Effect → Bool) : List Effect → HookOutcome
  | [] => { performed := [], exitCode := 0, errorLogged := false }
  | e :: rest =>
    if isSyncEffect e && fails e then
      { performed := [], exitCode := 0, errorLogged := true }
    else
      let o := runEffects fails rest
      { o with performed := e :: o.performed }

/-- Iterate the Stop handler over a sequence of Stop events, collecting
the final state and every forwarded assistant message in order. -/
def runStops (fs : String → Option (List (Option TranscriptEntry))) (now : String)
    (st : SessionEntry) : List (Option String) → SessionEntry × List AssistantMessage
  | [] => (st, [])
  | tp :: rest =>
    let r := hookStop fs now st tp
    let k := runStops fs now r.state rest
    (k.1, r.emitted ++ k.2)

/-! ### Lemmas about the Stop-case message loop -/

/-- Abbreviation: the non-empty entry ids of a forwarded batch. -/
def newIds (l : List AssistantMessage) : List String :=
  (l.map AssistantMessage.uuid).filter (· ≠ "")

/-- `newIds` over a cons whose head has a non-empty uuid. -/
theorem newIds_cons_ne (m : AssistantMessage) (l : List AssistantMessage)
    (h : m.uuid ≠ "") : newIds (m :: l) = m.uuid :: newIds l := by
  simp [newIds, h]

/-- `newIds` over a cons whose head has an empty uuid. -/
theorem newIds_cons_eq (m : AssistantMessage) (l : List AssistantMessage)
    (h : m.uuid = "") : newIds (m :: l) = newIds l := by
  simp [newIds, h]

/-- Structure of one pass of the Stop message loop: it forwards a batch
`new` of messages (appended to the accumulator), extends the synced set by
exactly the non-empty ids of that batch, those ids are pairwise distinct
and none of them was synced before, `messageCount` grows by the size of
the batch, and every empty-id message of the input is forwarded. -/
theorem stopLoop_spec (msgs : List AssistantMessage) (acc : StopAcc) :
    ∃ new : List AssistantMessage,
      (msgs.foldl stopStep acc).emitted = acc.emitted ++ new ∧
      (msgs.foldl stopStep acc).synced = acc.synced ++ newIds new ∧
      (newIds new).Nodup ∧
      (∀ u ∈ newIds new, u ∉ acc.synced) ∧
      (msgs.foldl stopStep acc).messageCount =
        (if new.isEmpty then acc.messageCount
         else some (acc.messageCount.getD 0 + new.length)) ∧
      new.filter (fun m => m.uuid = "") = msgs.filter (fun m => m.uuid = "") ∧
      (∀ m ∈ new, m ∈ msgs) := by
  induction msgs generalizing acc with
  | nil => exact ⟨[], by simp [newIds]⟩
  | cons m rest ih =>
    by_cases h : m.uuid ≠ "" ∧ m.uuid ∈ acc.synced
    · -- skipped: the whole entry is ignored
      have hskip : stopStep acc m = acc := by simp [stopStep, h]
      obtain ⟨new, h1, h2, h3, h4, h5, h6, h7⟩ := ih acc
      refine ⟨new, ?_, ?_, h3, h4, ?_, ?_, ?_⟩
      · rw [List.foldl_cons, hskip]; exact h1
      · rw [List.foldl_cons, hskip]; exact h2
      · rw [List.foldl_cons, hskip]; exact h5
      · rw [h6]
        simp [List.filter_cons, h.1]
      · intro x hx
        exact List.mem_cons_of_mem _ (h7 _ hx)
    · -- forwarded
      have hstep : stopStep acc m =
          { synced := if m.uuid ≠ "" then acc.synced ++ [m.uuid] else acc.synced,
            messageCount := some (acc.messageCount.getD 0 + 1),
            emitted := acc.emitted ++ [m] } := by
        simp [stopStep, h]
      obtain ⟨new', h1, h2, h3, h4, h5, h6, h7⟩ := ih (stopStep acc m)
      refine ⟨m :: new', ?_, ?_, ?_, ?_, ?_, ?_, ?_⟩
      · rw [List.foldl_cons, h1, hstep]; simp
      · rw [List.foldl_cons, h2, hstep]
        by_cases hu : m.uuid = ""
        · rw [newIds_cons_eq _ _ hu]; simp [hu]
        · rw [newIds_cons_ne _ _ hu]; simp [hu]
      · by_cases hu : m.uuid = ""
        · rw [newIds_cons_eq _ _ hu]; exact h3
        · rw [newIds_cons_ne _ _ hu, List.nodup_cons]
          have hmem : m.uuid ∈ (stopStep acc m).synced := by rw [hstep]; simp [hu]
          exact ⟨fun hc => h4 _ hc hmem, h3⟩
      · intro u hu'
        by_cases hu : m.uuid = ""
        · rw [newIds_cons_eq _ _ hu] at hu'
          have h4' := h4 u hu'
          rw [hstep] at h4'
          simpa [hu] using h4'
        · rw [newIds_cons_ne _ _ hu, List.mem_cons] at hu'
          rcases hu' with rfl | hu'
          · exact fun hc => h ⟨hu, hc⟩
          · have h4' := h4 u hu'
            rw [hstep] at h4'
            simp only [ne_eq, hu, not_false_eq_true, if_true] at h4'
            exact fun hc => h4' (List.mem_append_left _ hc)
      · rw [List.foldl_cons, h5, hstep]
        cases new' with
        | nil => simp
        | cons y ys => simp; omega
      · simp only [List.filter_cons, h6]
      · intro x hx
        rcases List.mem_cons.mp hx with rfl | hx
        · exact List.mem_cons_self _ _
        · exact List.mem_cons_of_mem _ (h7 _ hx)

/-- The synced set never shrinks across one loop pass. -/
theorem stopLoop_synced_mono (msgs : List AssistantMessage) (acc : StopAcc) :
    acc.synced ⊆ (msgs.foldl stopStep acc).synced := by
  obtain ⟨new, _, h2, _⟩ := stopLoop_spec msgs acc
  rw [h2]; exact fun u hu => List.mem_append_left _ hu

/-- After one pass, every non-empty uuid occurring in the input batch is
in the synced set. -/
theorem stopLoop_mem_synced (msgs : List AssistantMessage) (acc : StopAcc) :
    ∀ m ∈ msgs, m.uuid ≠ "" → m.uuid ∈ (msgs.foldl stopStep acc).synced := by
  induction msgs generalizing acc with
  | nil => simp
  | cons m rest ih =>
    intro x hx hxu
    rcases List.mem_cons.mp hx with rfl | hx
    · -- x = m: after the head step its uuid is synced, and stays synced
      rw [List.foldl_cons]
      refine stopLoop_synced_mono rest _ ?_
      by_cases h : x.uuid ∈ acc.synced
      · have hskip : stopStep acc x = acc := by simp [stopStep, hxu, h]
        rw [hskip]; exact h
      · have : stopStep acc x =
            { synced := acc.synced ++ [x.uuid],
              messageCount := some (acc.messageCount.getD 0 + 1),
              emitted := acc.emitted ++ [x] } := by
          simp [stopStep, hxu, h]
        rw [this]; simp
    · rw [List.foldl_cons]; exact ih _ x hx hxu

/-- If every message of the batch carries a non-empty uuid that is already
synced, the loop is a no-op. -/
theorem stopLoop_all_skip (msgs : List AssistantMessage) (acc : StopAcc)
    (h : ∀ m ∈ msgs, m.uuid ≠ "" ∧ m.uuid ∈ acc.synced) :
    msgs.foldl stopStep acc = acc := by
  induction msgs with
  | nil => rfl
  | cons m rest ih =>
    rw [List.foldl_cons, show stopStep acc m = acc from by simp [stopStep, h m (by simp)]]
    exact ih (fun x hx => h x (by simp [hx]))

/-- Unfolding of the Stop handler for a truthy transcript path: the state
written back keeps `model`/`firstPrompt`, conditionally replaces
`tokenUsage`, and takes `messageCount`/synced set from the message loop. -/
theorem hookStop_some (fs : String → Option (List (Option TranscriptEntry))) (now : String)
    (st : SessionEntry) (p : String) (hp : p ≠ "") :
    hookStop fs now st (some p) =
      (let t := parseTranscriptFile now (fs p)
       let r := t.assistantMessages.foldl stopStep
         { synced := st.syncedMessageUuids.getD [], messageCount := st.messageCount,
           emitted := [] }
       { state :=
           { model := st.model, firstPrompt := st.firstPrompt,
             tokenUsage :=
               if t.tokenUsage.input > 0 ∨ t.tokenUsage.output > 0 then some t.tokenUsage
               else st.tokenUsage,
             messageCount := r.messageCount,
             syncedMessageUuids := some r.synced },
         emitted := r.emitted }) := by
  simp only [hookStop]
  rw [if_neg hp]
  split_ifs <;> rfl

/-- The hook command always calls `process.exit(0)`, whether or not a
collector call threw. -/
theorem runEffects_exitCode (fails : Effect → Bool) (effs : List Effect) :
    (runEffects fails effs).exitCode = 0 := by
  induction effs with
  | nil => rfl
  | cons e rest ih =>
    simp only [runEffects]
    split_ifs <;> simp [ih]

/-- When no error was logged, every effect of the trace was performed. -/
theorem runEffects_no_error (fails : Effect → Bool) (effs : List Effect)
    (h : (runEffects fails effs).errorLogged = false) :
    (runEffects fails effs).performed = effs := by
  induction effs with
  | nil => rfl
  | cons e rest ih =>
    by_cases hc : (isSyncEffect e && fails e) = true
    · have hlog : (runEffects fails (e :: rest)).errorLogged = true := by
        simp [runEffects, hc]
      rw [hlog] at h; simp at h
    · have hrec : runEffects fails (e :: rest) =
          { performed := e :: (runEffects fails rest).performed,
            exitCode := (runEffects fails rest).exitCode,
            errorLogged := (runEffects fails rest).errorLogged } := by
        simp [runEffects, hc]
      rw [hrec] at h ⊢
      exact congrArg (List.cons e) (ih h)

/-- An error is logged by the catch handler exactly when the trace holds a
throwing collector call. -/
theorem runEffects_error_iff (fails : Effect → Bool) (effs : List Effect) :
    (runEffects fails effs).errorLogged = true ↔
      ∃ e ∈ effs, isSyncEffect e = true ∧ fails e = true := by
  induction effs with
  | nil => simp [runEffects]
  | cons e rest ih =>
    by_cases hc : (isSyncEffect e && fails e) = true
    · simp only [Bool.and_eq_true] at hc
      have hlog : (runEffects fails (e :: rest)).errorLogged = true := by
        simp [runEffects, hc]
      rw [hlog]
      simp only [true_iff]
      exact ⟨e, List.mem_cons_self _ _, hc.1, hc.2⟩
    · have hrec : runEffects fails (e :: rest) =
          { performed := e :: (runEffects fails rest).performed,
            exitCode := (runEffects fails rest).exitCode,
            errorLogged := (runEffects fails rest).errorLogged } := by
        simp [runEffects, hc]
      rw [hrec]
      simp only [Bool.and_eq_true, not_and] at hc
      constructor
      · intro h
        obtain ⟨x, hx, hsx, hfx⟩ := ih.mp h
        exact ⟨x, List.mem_cons_of_mem _ hx, hsx, hfx⟩
      · rintro ⟨x, hx, hsx, hfx⟩
        rcases List.mem_cons.mp hx with rfl | hx
        · exact absurd hfx (hc hsx)
        · exact ih.mpr ⟨x, hx, hsx, hfx⟩

/-- `newIds` distributes over append. -/
theorem newIds_append (a b : List AssistantMessage) :
    newIds (a ++ b) = newIds a ++ newIds b := by
  simp [newIds]

/-- One Stop invocation: the synced set only grows, the non-empty ids of
the forwarded batch are pairwise distinct, none of them was synced before
and all of them are synced afterwards, and `messageCount` cannot drop. -/
theorem hookStop_spec (fs : String → Option (List (Option TranscriptEntry))) (now : String)
    (st : SessionEntry) (tp : Option String) :
    (∀ u ∈ st.syncedMessageUuids.getD [],
        u ∈ (hookStop fs now st tp).state.syncedMessageUuids.getD []) ∧
    (newIds (hookStop fs now st tp).emitted).Nodup ∧
    (∀ u ∈ newIds (hookStop fs now st tp).emitted,
        u ∉ st.syncedMessageUuids.getD [] ∧
        u ∈ (hookStop fs now st tp).state.syncedMessageUuids.getD []) ∧
    st.messageCount.getD 0 ≤ (hookStop fs now st tp).state.messageCount.getD 0 := by
  match tp with
  | none => exact ⟨fun u hu => hu, by simp [hookStop, newIds], by simp [hookStop, newIds], le_refl _⟩
  | some p =>
    by_cases hp : p = ""
    · subst hp
      exact ⟨fun u hu => hu, by simp [hookStop, newIds], by simp [hookStop, newIds], le_refl _⟩
    · rw [hookStop_some fs now st p hp]
      obtain ⟨new, h1, h2, h3, h4, h5, h6, h7⟩ :=
        stopLoop_spec (parseTranscriptFile now (fs p)).assistantMessages
          { synced := st.syncedMessageUuids.getD [], messageCount := st.messageCount,
            emitted := [] }
      simp only at h1 h2 h4 h5 ⊢
      rw [h1, h2] at *
      refine ⟨?_, ?_, ?_, ?_⟩
      · intro u hu
        simp only [Option.getD_some]
        exact List.mem_append_left _ hu
      · simpa using h3
      · intro u hu
        simp only [List.nil_append] at hu
        refine ⟨h4 u hu, ?_⟩
        simp only [Option.getD_some]
        exact List.mem_append_right _ hu
      · rw [h5]
        split_ifs with he
        · exact le_refl _
        · simp

/-- Across any sequence of Stop invocations: the synced set grows
monotonically and the non-empty entry ids forwarded over the whole
sequence are pairwise distinct (no id is ever forwarded twice). -/
theorem runStops_spec (fs : String → Option (List (Option TranscriptEntry))) (now : String)
    (tps : List (Option String)) (st : SessionEntry) :
    (∀ u ∈ st.syncedMessageUuids.getD [],
        u ∈ (runStops fs now st tps).1.syncedMessageUuids.getD []) ∧
    (newIds (runStops fs now st tps).2).Nodup ∧
    (∀ u ∈ newIds (runStops fs now st tps).2,
        u ∉ st.syncedMessageUuids.getD [] ∧
        u ∈ (runStops fs now st tps).1.syncedMessageUuids.getD []) := by
  induction tps generalizing st with
  | nil => exact ⟨fun u hu => hu, by simp [runStops, newIds], by simp [runStops, newIds]⟩
  | cons tp rest ih =>
    obtain ⟨s1, s2, s3, _⟩ := hookStop_spec fs now st tp
    obtain ⟨i1, i2, i3⟩ := ih (hookStop fs now st tp).state
    have hrun1 : (runStops fs now st (tp :: rest)).1 =
        (runStops fs now (hookStop fs now st tp).state rest).1 := rfl
    have hrun2 : (runStops fs now st (tp :: rest)).2 =
        (hookStop fs now st tp).emitted ++
          (runStops fs now (hookStop fs now st tp).state rest).2 := rfl
    rw [hrun1, hrun2, newIds_append]
    refine ⟨fun u hu => i1 u (s1 u hu), ?_, ?_⟩
    · refine List.Nodup.append s2 i2 ?_
      intro u hu1 hu2
      exact (i3 u hu2).1 (s3 u hu1).2
    · intro u hu
      rcases List.mem_append.mp hu with hu1 | hu2
      · exact ⟨(s3 u hu1).1, i1 u (s3 u hu1).2⟩
      · exact ⟨fun hc => (i3 u hu2).1 (s1 u hc), (i3 u hu2).2⟩

/-- Replaying a Stop invocation on the state it produced is a no-op as
long as every parsed assistant message carries a non-empty uuid: same
`messageCount`, nothing forwarded, same synced set. -/
theorem hookStop_idempotent (fs : String → Option (List (Option TranscriptEntry)))
    (now : String) (st : SessionEntry) (p : String) (hp : p ≠ "")
    (hu : ∀ m ∈ (parseTranscriptFile now (fs p)).assistantMessages, m.uuid ≠ "") :
    (hookStop fs now (hookStop fs now st (some p)).state (some p)).state.messageCount =
      (hookStop fs now st (some p)).state.messageCount ∧
    (hookStop fs now (hookStop fs now st (some p)).state (some p)).emitted = [] ∧
    (hookStop fs now (hookStop fs now st (some p)).state (some p)).state.syncedMessageUuids =
      (hookStop fs now st (some p)).state.syncedMessageUuids := by
  have h1 := hookStop_some fs now st p hp
  simp only at h1
  rw [h1]
  rw [hookStop_some fs now _ p hp]
  simp only
  have hskip := stopLoop_all_skip (parseTranscriptFile now (fs p)).assistantMessages
      { synced := (parseTranscriptFile now (fs p)).assistantMessages.foldl stopStep
          { synced := st.syncedMessageUuids.getD [], messageCount := st.messageCount,
            emitted := [] } |>.synced,
        messageCount := (parseTranscriptFile now (fs p)).assistantMessages.foldl stopStep
          { synced := st.syncedMessageUuids.getD [], messageCount := st.messageCount,
            emitted := [] } |>.messageCount,
        emitted := [] }
      (fun m hm => ⟨hu m hm, stopLoop_mem_synced _ _ m hm (hu m hm)⟩)
  simp only [Option.getD_some]
  rw [hskip]
  exact ⟨rfl, rfl, rfl⟩

/-- Recognizer for SessionStart events. -/
def isSessionStart : HookEvent → Bool
  | .sessionStart _ => true
  | _ => false

/-- Recognizer for SessionEnd events. -/
def isSessionEnd : HookEvent → Bool
  | .sessionEnd _ => true
  | _ => false

/-- A single non-SessionStart, non-SessionEnd event never decreases the
stored `messageCount`. -/
theorem eventStep_mono (fs : String → Option (List (Option TranscriptEntry))) (now : String)
    (st : Option SessionEntry) (e : HookEvent)
    (h1 : isSessionStart e = false) (h2 : isSessionEnd e = false) :
    observedCount st ≤ observedCount (eventStep fs now st e) := by
  match e with
  | .sessionStart m => simp [isSessionStart] at h1
  | .sessionEnd d => simp [isSessionEnd] at h2
  | .userPromptSubmit prompt =>
    simp only [eventStep, observedCount, userPromptState, Option.getD_some]
    split_ifs <;> simp
  | .postToolUse => exact le_refl _
  | .unknownEvent => exact le_refl _
  | .stop tp =>
    have h := (hookStop_spec fs now (st.getD emptySessionEntry) tp).2.2.2
    simpa [eventStep, observedCount] using h

/-- Monotonicity of `messageCount` over whole event sequences without
SessionStart and SessionEnd. -/
theorem eventSeq_mono (fs : String → Option (List (Option TranscriptEntry))) (now : String)
    (evs : List HookEvent) (st : Option SessionEntry)
    (h : ∀ e ∈ evs, isSessionStart e = false ∧ isSessionEnd e = false) :
    observedCount st ≤ observedCount (evs.foldl (eventStep fs now) st) := by
  induction evs generalizing st with
  | nil => exact le_refl _
  | cons e rest ih =>
    rw [List.foldl_cons]
    exact le_trans (eventStep_mono fs now st e (h e (by simp)).1 (h e (by simp)).2)
      (ih _ (fun x hx => h x (by simp [hx])))

/-- Except on the empty model string, `calculateCost` agrees with the
claim-worded cost function. -/
theorem calculateCost_eq_claim (m : String) (hm : m ≠ "") (stats : TranscriptStats) :
    calculateCost (some m) stats = calculateCostClaim (some m) stats := by
  simp only [calculateCost, calculateCostClaim]
  rw [if_neg hm]

/-- `generateTitle` agrees everywhere with the amended-claim wording. -/
theorem generateTitle_eq_amended (p : List Char) : generateTitle p = generateTitleAmended p := by
  by_cases hlen : p.length ≤ 80
  · have h2 : ¬ 80 < p.length := by omega
    simp only [generateTitle, generateTitleAmended, h2, if_false, hlen, if_true]
    rw [List.take_of_length_le hlen]
  · have h2 : 80 < p.length := by omega
    simp only [generateTitle, generateTitleAmended, h2, if_true, hlen, if_false]
    by_cases hsp : ' ' ∈ trimChars (List.take 80 p)
    · have hls : lastSpaceIdx (trimChars (List.take 80 p)) =
          some ((trimChars (List.take 80 p)).length - 1 -
            (trimChars (List.take 80 p)).reverse.indexOf ' ') := by
        simp [lastSpaceIdx, hsp]
      have hjs : jsLastIndexOf (trimChars (List.take 80 p)) ' ' =
          (((trimChars (List.take 80 p)).length - 1 -
            (trimChars (List.take 80 p)).reverse.indexOf ' ' : Nat) : Int) := by
        simp [jsLastIndexOf, hsp]
      rw [hls, hjs]
      dsimp only
      set k := (trimChars (List.take 80 p)).length - 1 -
        (trimChars (List.take 80 p)).reverse.indexOf ' ' with hk
      by_cases h40 : 40 < k
      · rw [if_pos (by exact_mod_cast h40), if_pos h40]
        have htn : ((k : Int)).toNat = k := by omega
        rw [htn]
      · rw [if_neg (by exact_mod_cast h40), if_neg h40]
    · have hls : lastSpaceIdx (trimChars (List.take 80 p)) = none := by
        simp [lastSpaceIdx, hsp]
      have hjs : jsLastIndexOf (trimChars (List.take 80 p)) ' ' = -1 := by
        simp [jsLastIndexOf, hsp]
      rw [hls, hjs]
      dsimp only
      rw [if_neg (by norm_num)]

/-! ### Concrete fixtures for witnesses and counterexamples -/

/-- An assistant transcript entry carrying no uuid. -/
def entryNoUuid : TranscriptEntry :=
  { type := some "assistant",
    message := some { content := some [{ type := "text", text := some "hi" }],
                      usage := some { input_tokens := some 100, output_tokens := some 50 } },
    timestamp := some "ts" }

/-- The same assistant entry with uuid `"u1"`. -/
def entryWithUuid : TranscriptEntry := { entryNoUuid with uuid := some "u1" }

/-- A file system where every path holds the uuid-less transcript. -/
def fsNoUuid : String → Option (List (Option TranscriptEntry)) := fun _ => some [some entryNoUuid]

/-- A file system where every path holds the uuid-carrying transcript. -/
def fsWithUuid : String → Option (List (Option TranscriptEntry)) := fun _ => some [some entryWithUuid]

/-- A file system with no files at all. -/
def fsMissing : String → Option (List (Option TranscriptEntry)) := fun _ => none

/-- A freshly initialized session entry (as written by SessionStart). -/
def freshEntry : SessionEntry :=
  { model := some "claude", tokenUsage := some ⟨0, 0⟩, messageCount := some 0 }

/-- A fault model in which every message sync throws. -/
def failsMessages : Effect → Bool
  | .syncMessage _ => true
  | _ => false

/-- The fault-free model. -/
def noFailure : Effect → Bool := fun _ => false

/-- Recognizer for session-update effects. -/
def isSessionUpdate : Effect → Bool
  | .syncSession _ => true
  | _ => false

/-- One million input and one million output tokens, no cache traffic. -/
def stats1M : TranscriptStats := { inputTokens := 1000000, outputTokens := 1000000 }

/-- A 100-character prompt whose only space sits at 0-based index 40
(the 41st character). -/
def promptSpace41 : List Char := List.replicate 40 'a' ++ [' '] ++ List.replicate 59 'b'

/-- A 100-character prompt whose 45th character (0-based index 44) is its
only space. -/
def promptSpace45 : List Char := List.replicate 44 'a' ++ [' '] ++ List.replicate 55 'b'

/-- A 50-character prompt without spaces. -/
def prompt50 : List Char := List.replicate 50 'a'

/-- A 100-character prompt without any space. -/
def promptNoSpace : List Char := List.replicate 100 'a'

/-- A session entry at end of session: five counted messages, first
prompt recorded. -/
def endState5 : SessionEntry := { firstPrompt := some "fix bug", messageCount := some 5 }

/-- A SessionEnd payload carrying an authoritative message count of 0. -/
def endDataZero : SessionEndData := { message_count := some 0 }

/-- A SessionEnd payload carrying authoritative non-zero counts. -/
def endData7 : SessionEndData :=
  { message_count := some 7, tool_call_count := some 2,
    total_token_usage := some ⟨100, 50⟩, cost_estimate := some 1 }

/-! ### Claim theorems -/

/-- Claim C1, counterexample: Stop processing is not idempotent as stated.
For the transcript whose single assistant turn has no uuid, replaying the
same Stop event (same transcript, prior state produced by the first pass)
increments `messageCount` again. -/
theorem stop_idempotence_counterexample :
    (hookStop fsNoUuid "T" (hookStop fsNoUuid "T" freshEntry (some "/t")).state
        (some "/t")).state.messageCount ≠
      (hookStop fsNoUuid "T" freshEntry (some "/t")).state.messageCount := by
  decide

/-- Claim C1 (amended): provided every parsed assistant turn carries a
non-empty uuid, replaying the same Stop event is a no-op (same
`messageCount`, nothing forwarded, same synced set); and unconditionally,
across every sequence of Stop events the synced set only grows and no
non-empty entry id is ever forwarded twice as a new message. -/
theorem stop_idempotent_amended (fs : String → Option (List (Option TranscriptEntry)))
    (now : String) :
    (∀ (st : SessionEntry) (p : String), p ≠ "" →
      (∀ m ∈ (parseTranscriptFile now (fs p)).assistantMessages, m.uuid ≠ "") →
      (hookStop fs now (hookStop fs now st (some p)).state (some p)).state.messageCount =
        (hookStop fs now st (some p)).state.messageCount ∧
      (hookStop fs now (hookStop fs now st (some p)).state (some p)).emitted = [] ∧
      (hookStop fs now (hookStop fs now st (some p)).state (some p)).state.syncedMessageUuids =
        (hookStop fs now st (some p)).state.syncedMessageUuids) ∧
    (∀ (st : SessionEntry) (tps : List (Option String)),
      (∀ u ∈ st.syncedMessageUuids.getD [],
        u ∈ (runStops fs now st tps).1.syncedMessageUuids.getD []) ∧
      (newIds (runStops fs now st tps).2).Nodup) :=
  ⟨fun st p hp hu => hookStop_idempotent fs now st p hp hu,
   fun st tps => ⟨(runStops_spec fs now tps st).1, (runStops_spec fs now tps st).2.1⟩⟩

/-- Witness for the amended C1 theorem at the uuid-carrying transcript. -/
theorem stop_idempotent_amended_witness :
    (hookStop fsWithUuid "T" (hookStop fsWithUuid "T" freshEntry (some "/t")).state
        (some "/t")).state.messageCount =
      (hookStop fsWithUuid "T" freshEntry (some "/t")).state.messageCount ∧
    (hookStop fsWithUuid "T" (hookStop fsWithUuid "T" freshEntry (some "/t")).state
        (some "/t")).emitted = [] ∧
    (hookStop fsWithUuid "T" (hookStop fsWithUuid "T" freshEntry (some "/t")).state
        (some "/t")).state.syncedMessageUuids =
      (hookStop fsWithUuid "T" freshEntry (some "/t")).state.syncedMessageUuids :=
  (stop_idempotent_amended fsWithUuid "T").1 freshEntry "/t" (by decide) (by decide)

/-- Claim C2, counterexample: when a message sync throws during a Stop
invocation, nothing at all is persisted, although a state update (the new
`messageCount`, token usage and synced set) had been computed before the
failure; the claim's "local session state is still persisted" is false. -/
theorem stop_failure_counterexample :
    (runEffects failsMessages
        (hookEffects fsWithUuid "T" true (some freshEntry) (.stop (some "/t")))).performed = [] ∧
    (hookStop fsWithUuid "T" freshEntry (some "/t")).state ≠ freshEntry := by
  decide

/-- Claim C2 (amended): for every lifecycle event invocation and every
fault model, the hook command exits with code 0 (the hosting process is
never aborted abnormally), a delivery error is logged (surfaced to the
top-level catch) exactly when a collector call in the trace throws, and
when no error occurs the whole effect trace — including the state save —
is performed.  State persistence under failure is NOT guaranteed on Stop,
whose save runs after the message syncs (see the counterexample). -/
theorem hook_failure_semantics (fs : String → Option (List (Option TranscriptEntry)))
    (now : String) (stc : Bool) (st : Option SessionEntry) (e : HookEvent)
    (fails : Effect → Bool) :
    (runEffects fails (hookEffects fs now stc st e)).exitCode = 0 ∧
    ((runEffects fails (hookEffects fs now stc st e)).errorLogged = false →
      (runEffects fails (hookEffects fs now stc st e)).performed = hookEffects fs now stc st e) ∧
    ((runEffects fails (hookEffects fs now stc st e)).errorLogged = true ↔
      ∃ x ∈ hookEffects fs now stc st e, isSyncEffect x = true ∧ fails x = true) :=
  ⟨runEffects_exitCode _ _, runEffects_no_error _ _, runEffects_error_iff _ _⟩

/-- Witness for the amended C2 theorem: a fault-free Stop invocation
exits 0 and performs its full trace. -/
theorem hook_failure_semantics_witness :
    (runEffects noFailure
        (hookEffects fsWithUuid "T" true (some freshEntry) (.stop (some "/t")))).exitCode = 0 ∧
    (runEffects noFailure
        (hookEffects fsWithUuid "T" true (some freshEntry) (.stop (some "/t")))).performed =
      hookEffects fsWithUuid "T" true (some freshEntry) (.stop (some "/t")) :=
  ⟨(hook_failure_semantics fsWithUuid "T" true (some freshEntry) (.stop (some "/t")) noFailure).1,
   (hook_failure_semantics fsWithUuid "T" true (some freshEntry) (.stop (some "/t")) noFailure).2.1
     (by decide)⟩

/-- Claim C3: on a Stop event with a truthy transcript path, a non-zero
parsed usage replaces `tokenUsage` wholesale with the freshly parsed
total, and a zero parsed usage leaves `tokenUsage` unchanged. -/
theorem stop_tokenUsage_replaced (fs : String → Option (List (Option TranscriptEntry)))
    (now : String) (st : SessionEntry) (p : String) (hp : p ≠ "") :
    ((parseTranscriptFile now (fs p)).tokenUsage.input > 0 ∨
        (parseTranscriptFile now (fs p)).tokenUsage.output > 0 →
      (hookStop fs now st (some p)).state.tokenUsage =
        some (parseTranscriptFile now (fs p)).tokenUsage) ∧
    ((parseTranscriptFile now (fs p)).tokenUsage.input = 0 ∧
        (parseTranscriptFile now (fs p)).tokenUsage.output = 0 →
      (hookStop fs now st (some p)).state.tokenUsage = st.tokenUsage) := by
  rw [hookStop_some fs now st p hp]
  dsimp only
  constructor
  · intro h; rw [if_pos h]
  · rintro ⟨h1, h2⟩; rw [if_neg (by omega)]

/-- Witness for C3: the 150/50-token transcript replaces the zero counter
wholesale; the missing transcript leaves it unchanged. -/
theorem stop_tokenUsage_replaced_witness :
    (hookStop fsWithUuid "T" freshEntry (some "/t")).state.tokenUsage =
      some (parseTranscriptFile "T" (fsWithUuid "/t")).tokenUsage ∧
    (hookStop fsMissing "T" freshEntry (some "/t")).state.tokenUsage = freshEntry.tokenUsage :=
  ⟨(stop_tokenUsage_replaced fsWithUuid "T" freshEntry "/t" (by decide)).1 (by decide),
   (stop_tokenUsage_replaced fsMissing "T" freshEntry "/t" (by decide)).2 (by decide)⟩

/-- Claim C4, counterexample: a second SessionStart in the sequence resets
`messageCount` from 1 back to 0, so the count does decrease across a
sequence of processed events that contains no SessionEnd. -/
theorem messageCount_decrease_counterexample :
    observedCount ([HookEvent.sessionStart (some "m"), .userPromptSubmit "hi",
        .sessionStart (some "m")].foldl (eventStep fsMissing "T") none) <
      observedCount ([HookEvent.sessionStart (some "m"), .userPromptSubmit "hi"].foldl
        (eventStep fsMissing "T") none) := by
  decide

/-- Claim C4 (amended): for a fixed session, `messageCount` never
decreases across any sequence of UserPromptSubmit, PostToolUse, Stop and
unknown events; a SessionStart event resets the count to zero, and a
SessionEnd event deletes the accumulator. -/
theorem messageCount_monotone_amended (fs : String → Option (List (Option TranscriptEntry)))
    (now : String) :
    (∀ (evs : List HookEvent) (st : Option SessionEntry),
      (∀ e ∈ evs, isSessionStart e = false ∧ isSessionEnd e = false) →
      observedCount st ≤ observedCount (evs.foldl (eventStep fs now) st)) ∧
    (∀ (st : Option SessionEntry) (m : Option String),
      observedCount (eventStep fs now st (.sessionStart m)) = 0) ∧
    (∀ (st : Option SessionEntry) (d : SessionEndData),
      eventStep fs now st (.sessionEnd d) = none) :=
  ⟨eventSeq_mono fs now, fun _ _ => rfl, fun _ _ => rfl⟩

/-- Witness for the amended C4 theorem on a prompt-then-stop sequence. -/
theorem messageCount_monotone_amended_witness :
    observedCount (some freshEntry) ≤
      observedCount ([HookEvent.userPromptSubmit "hi", .stop (some "/t")].foldl
        (eventStep fsWithUuid "T") (some freshEntry)) :=
  (messageCount_monotone_amended fsWithUuid "T").1 _ _ (by decide)


/-- Claim C5, counterexample: on the 100-character prompt whose last space
inside the 80-character window sits at 0-based index 40 (the 41st
character, hence "at or after the 40th character" on either indexing
convention), the code does not trim at that space — it returns the raw
80-character cut plus the marker — so the claimed rule fails whether the
trim is read as keeping or dropping the space. -/
theorem title_counterexample :
    generateTitle promptSpace41 ≠ List.replicate 40 'a' ++ ellipsis ∧
    generateTitle promptSpace41 ≠ (List.replicate 40 'a' ++ [' ']) ++ ellipsis ∧
    generateTitle promptSpace41 =
      (List.replicate 40 'a' ++ [' '] ++ List.replicate 39 'b') ++ ellipsis := by
  decide

/-- Claim C5 (amended): a prompt of at most 80 characters yields the
trimmed prompt verbatim; a longer prompt yields the whitespace-trimmed
80-character window cut just before its last space — the space itself
excluded — whenever that space sits at 0-based index strictly greater
than 40 (42nd character or later), with the ellipsis marker appended, and
otherwise the whole trimmed window with the marker appended.  On the
claim's instances: the 50-character prompt is returned unchanged, the
prompt with its only space as 45th character keeps the first 44
characters plus the marker, and the spaceless 100-character prompt keeps
the first 80 characters plus the marker. -/
theorem generateTitle_amended_correct :
    (∀ p : List Char, generateTitle p = generateTitleAmended p) ∧
    generateTitle prompt50 = prompt50 ∧
    generateTitle promptSpace45 = List.replicate 44 'a' ++ ellipsis ∧
    generateTitle promptNoSpace = List.replicate 80 'a' ++ ellipsis :=
  ⟨generateTitle_eq_amended, by decide, by decide, by decide⟩

/-- Claim C6, counterexample: on the empty model string the claimed
lookup rule finds the first pricing row by substring match (every key
contains the empty string), giving cost 18.00 for a million input and a
million output tokens, but `calculateCost` returns 0 because JS treats
the empty model as falsy. -/
theorem cost_counterexample :
    calculateCost (some "") stats1M = 0 ∧
    calculateCostClaim (some "") stats1M = 18 ∧ (0 : ℚ) ≠ 18 := by
  refine ⟨rfl, ?_, by norm_num⟩
  have h : calculateCostClaim (some "") stats1M =
      costFormula ⟨3.00, 15.00, 3.75, 0.30⟩ stats1M := rfl
  rw [h]; norm_num [costFormula, stats1M]

/-- Claim C6 (amended): for every defined non-empty model the returned
cost equals the claim's rule (sum of tokens times per-million rates over
the four classes, divided by one million, with the rate row found by
exact then either-direction substring match); an undefined or empty model
— or a model with no match, for which the claim rule itself yields 0 —
gives exactly 0; and the sonnet row prices one million input plus one
million output tokens at exactly 18.00. -/
theorem calculateCost_amended :
    (∀ (m : String), m ≠ "" → ∀ stats : TranscriptStats,
      calculateCost (some m) stats = calculateCostClaim (some m) stats) ∧
    (∀ stats : TranscriptStats, calculateCost none stats = 0) ∧
    (∀ stats : TranscriptStats, calculateCost (some "") stats = 0) ∧
    calculateCost (some "claude-sonnet-4-20250514") stats1M = 18 := by
  refine ⟨fun m hm stats => calculateCost_eq_claim m hm stats, fun _ => rfl, fun _ => rfl, ?_⟩
  have h : calculateCost (some "claude-sonnet-4-20250514") stats1M =
      costFormula ⟨3.00, 15.00, 3.75, 0.30⟩ stats1M := rfl
  rw [h]; norm_num [costFormula, stats1M]

/-- Witness for the amended C6 theorem at the exact sonnet model name. -/
theorem calculateCost_amended_witness :
    calculateCost (some "claude-sonnet-4-20250514") stats1M =
      calculateCostClaim (some "claude-sonnet-4-20250514") stats1M :=
  calculateCost_amended.1 "claude-sonnet-4-20250514" (by decide) stats1M


/-- Claim C7: a missing transcript file parses to the empty result (no
turns, zero usage), and a Stop event referencing such a path forwards
nothing new, leaves the accumulated `tokenUsage`/`messageCount` in place,
and still forwards a Session record built from the accumulated state. -/
theorem missing_transcript_safe (fs : String → Option (List (Option TranscriptEntry)))
    (now : String) (st : SessionEntry) (p : String) (hp : p ≠ "") (hmiss : fs p = none) :
    parseTranscriptFile now (fs p) = { assistantMessages := [], tokenUsage := ⟨0, 0⟩ } ∧
    (hookStop fs now st (some p)).emitted = [] ∧
    (hookStop fs now st (some p)).state.tokenUsage = st.tokenUsage ∧
    (hookStop fs now st (some p)).state.messageCount = st.messageCount ∧
    Effect.syncSession { tokenUsage := st.tokenUsage, messageCount := st.messageCount } ∈
      hookEffects fs now true (some st) (.stop (some p)) := by
  have hparse : parseTranscriptFile now (fs p) =
      { assistantMessages := [], tokenUsage := ⟨0, 0⟩ } := by
    rw [hmiss]; rfl
  have hr : hookStop fs now st (some p) =
      { state := { model := st.model, firstPrompt := st.firstPrompt,
                   tokenUsage := st.tokenUsage, messageCount := st.messageCount,
                   syncedMessageUuids := some (st.syncedMessageUuids.getD []) },
        emitted := [] } := by
    rw [hookStop_some fs now st p hp, hparse]
    dsimp only
    rw [if_neg (by simp)]
    rfl
  refine ⟨hparse, by rw [hr], by rw [hr], by rw [hr], ?_⟩
  have heff : hookEffects fs now true (some st) (.stop (some p)) =
      (hookStop fs now st (some p)).emitted.map
        (fun m => Effect.syncMessage (assistantRecord m)) ++
      [Effect.save (some (hookStop fs now st (some p)).state),
       Effect.syncSession { tokenUsage := (hookStop fs now st (some p)).state.tokenUsage,
                            messageCount := (hookStop fs now st (some p)).state.messageCount }] := rfl
  rw [heff, hr]
  simp

/-- Witness for C7 on the empty file system. -/
theorem missing_transcript_safe_witness :
    parseTranscriptFile "T" (fsMissing "/t") =
      { assistantMessages := [], tokenUsage := ⟨0, 0⟩ } ∧
    (hookStop fsMissing "T" freshEntry (some "/t")).emitted = [] ∧
    (hookStop fsMissing "T" freshEntry (some "/t")).state.tokenUsage = freshEntry.tokenUsage ∧
    (hookStop fsMissing "T" freshEntry (some "/t")).state.messageCount =
      freshEntry.messageCount ∧
    Effect.syncSession
        { tokenUsage := freshEntry.tokenUsage, messageCount := freshEntry.messageCount } ∈
      hookEffects fsMissing "T" true (some freshEntry) (.stop (some "/t")) :=
  missing_transcript_safe fsMissing "T" freshEntry "/t" (by decide) rfl

/-- Claim C8, counterexample: with a locally accumulated count of 5 and an
externally supplied authoritative count of 0 — both present — the final
record carries the local 5, not the external 0: the JS `||` fallback does
not prefer a present-but-zero external value. -/
theorem sessionEnd_counterexample :
    endDataZero.message_count = some 0 ∧
    (hookSessionEnd (some endState5) endDataZero).1.messageCount = some 5 := by
  decide

/-- Claim C8 (amended): the final SessionEnd record prefers the
externally supplied values when present — except that an external message
count of zero falls back to the locally accumulated count (JS falsy
fallback); tool-call count and cost estimate are taken from the event
alone; the title is derived from a recorded non-empty `firstPrompt`;
missing state fields default to absent without failing; and the
accumulator is deleted afterwards. -/
theorem sessionEnd_amended (st : Option SessionEntry) (data : SessionEndData) :
    (∀ n : Nat, data.message_count = some n → n ≠ 0 →
      (hookSessionEnd st data).1.messageCount = some n) ∧
    (data.message_count = none ∨ data.message_count = some 0 →
      (hookSessionEnd st data).1.messageCount = (st.getD emptySessionEntry).messageCount) ∧
    (∀ u : TokenUsage, data.total_token_usage = some u →
      (hookSessionEnd st data).1.tokenUsage = some u) ∧
    (data.total_token_usage = none →
      (hookSessionEnd st data).1.tokenUsage = (st.getD emptySessionEntry).tokenUsage) ∧
    (hookSessionEnd st data).1.toolCallCount = data.tool_call_count ∧
    (hookSessionEnd st data).1.costEstimate = data.cost_estimate ∧
    (∀ fp : String, (st.getD emptySessionEntry).firstPrompt = some fp → fp ≠ "" →
      (hookSessionEnd st data).1.title = some (generateTitle fp.toList)) ∧
    ((st.getD emptySessionEntry).firstPrompt = none →
      (hookSessionEnd st data).1.title = none) ∧
    (hookSessionEnd st data).2 = none := by
  refine ⟨?_, ?_, ?_, ?_, rfl, rfl, ?_, ?_, rfl⟩
  · intro n h hn
    simp [hookSessionEnd, jsNumOr, h, hn]
  · rintro (h | h) <;> simp [hookSessionEnd, jsNumOr, h]
  · intro u h
    simp [hookSessionEnd, h]
  · intro h
    simp [hookSessionEnd, h]
  · intro fp h hfp
    simp [hookSessionEnd, h, hfp]
  · intro h
    simp [hookSessionEnd, h]

/-- Witness for the amended C8 theorem with non-zero authoritative end
data over a five-message accumulator. -/
theorem sessionEnd_amended_witness :
    (hookSessionEnd (some endState5) endData7).1.messageCount = some 7 ∧
    (hookSessionEnd (some endState5) endData7).1.tokenUsage = some ⟨100, 50⟩ ∧
    (hookSessionEnd (some endState5) endData7).1.title =
      some (generateTitle "fix bug".toList) ∧
    (hookSessionEnd (some endState5) endData7).2 = none :=
  ⟨(sessionEnd_amended (some endState5) endData7).1 7 rfl (by decide),
   (sessionEnd_amended (some endState5) endData7).2.2.1 ⟨100, 50⟩ rfl,
   (sessionEnd_amended (some endState5) endData7).2.2.2.2.2.2.1 "fix bug" rfl (by decide),
   (sessionEnd_amended (some endState5) endData7).2.2.2.2.2.2.2.2⟩

/-- Claim C9: the collector calls of a Stop invocation form one sequential
trace whose final awaited call is the single Session update, carrying the
final `tokenUsage`/`messageCount` totals; every assistant Message record
is awaited before it (no session update occurs earlier in the trace). -/
theorem stop_session_update_last (fs : String → Option (List (Option TranscriptEntry)))
    (now : String) (stc : Bool) (st : Option SessionEntry) (tp : Option String) :
    (hookEffects fs now stc st (.stop tp)).getLast? =
      some (Effect.syncSession
        { tokenUsage := (hookStop fs now (st.getD emptySessionEntry) tp).state.tokenUsage,
          messageCount := (hookStop fs now (st.getD emptySessionEntry) tp).state.messageCount }) ∧
    (hookEffects fs now stc st (.stop tp)).dropLast.all
      (fun e => !isSessionUpdate e) = true := by
  have heff : hookEffects fs now stc st (.stop tp) =
      ((hookStop fs now (st.getD emptySessionEntry) tp).emitted.map
        (fun m => Effect.syncMessage (assistantRecord m)) ++
        [Effect.save (some (hookStop fs now (st.getD emptySessionEntry) tp).state)]) ++
      [Effect.syncSession
        { tokenUsage := (hookStop fs now (st.getD emptySessionEntry) tp).state.tokenUsage,
          messageCount := (hookStop fs now (st.getD emptySessionEntry) tp).state.messageCount }] := by
    simp [hookEffects]
  rw [heff]
  constructor
  · rw [List.getLast?_concat]
  · rw [List.dropLast_concat]
    simp [List.all_append, isSessionUpdate]

/-- Claim C10: in Stop processing, deduplication and once-per-turn
accounting only apply to turns with a non-empty uuid.  Every parsed
assistant message with an empty uuid is forwarded on every invocation
that parses it, each forwarded message increments `messageCount`, and an
empty uuid is never added to the synced-id set. -/
theorem stop_empty_uuid (fs : String → Option (List (Option TranscriptEntry)))
    (now : String) (st : SessionEntry) (p : String) (hp : p ≠ "") :
    (hookStop fs now st (some p)).emitted.filter (fun m => m.uuid = "") =
      (parseTranscriptFile now (fs p)).assistantMessages.filter (fun m => m.uuid = "") ∧
    (∀ u ∈ (hookStop fs now st (some p)).state.syncedMessageUuids.getD [],
      u = "" → u ∈ st.syncedMessageUuids.getD []) ∧
    ((hookStop fs now st (some p)).state.messageCount =
      if (hookStop fs now st (some p)).emitted.isEmpty then st.messageCount
      else some (st.messageCount.getD 0 + (hookStop fs now st (some p)).emitted.length)) := by
  rw [hookStop_some fs now st p hp]
  obtain ⟨new, h1, h2, h3, h4, h5, h6, h7⟩ :=
    stopLoop_spec (parseTranscriptFile now (fs p)).assistantMessages
      { synced := st.syncedMessageUuids.getD [], messageCount := st.messageCount,
        emitted := [] }
  simp only at h1 h2 h5
  rw [List.nil_append] at h1
  refine ⟨?_, ?_, ?_⟩
  · simp only
    rw [h1, h6]
  · simp only [Option.getD_some]
    intro u hu hueq
    rw [h2] at hu
    rcases List.mem_append.mp hu with hu1 | hu2
    · exact hu1
    · exfalso
      simp only [newIds] at hu2
      have hm := List.mem_filter.mp hu2
      have hne : u ≠ "" := by simpa using hm.2
      exact hne hueq
  · simp only
    rw [h1, h5]

/-- Witness for C10 on the uuid-less transcript: its single assistant
message is forwarded and counted even though nothing is synced-tracked. -/
theorem stop_empty_uuid_witness :
    ((hookStop fsNoUuid "T" freshEntry (some "/t")).emitted.filter (fun m => m.uuid = "") =
      (parseTranscriptFile "T" (fsNoUuid "/t")).assistantMessages.filter
        (fun m => m.uuid = "")) ∧
    ((hookStop fsNoUuid "T" freshEntry (some "/t")).state.messageCount =
      if (hookStop fsNoUuid "T" freshEntry (some "/t")).emitted.isEmpty then
        freshEntry.messageCount
      else some (freshEntry.messageCount.getD 0 +
        (hookStop fsNoUuid "T" freshEntry (some "/t")).emitted.length)) :=
  ⟨(stop_empty_uuid fsNoUuid "T" freshEntry "/t" (by decide)).1,
   (stop_empty_uuid fsNoUuid "T" freshEntry "/t" (by decide)).2.2⟩


end ClaudeCodeSync
